import Mathlib

/-!
Verification of the bidirectional swap-amount synchronization engine of
`src/problem2/src/App.jsx` (token swap form).

The JavaScript code is shallowly embedded: numbers are modelled as exact
rationals, strings as Lean strings, and the React component's state plus its
two `useEffect` blocks become an explicit state-transition function `step`.
Every transition is the fixpoint of running the event handler followed by the
effects in declaration order (the amount-sync effect at App.jsx:124-164, then
the token-change effect at App.jsx:176-188), re-run until no dependency
changes, exactly as React executes them.
-/

namespace SwapApp

/-- An asset as produced by `processedTokenData` (App.jsx:17-25): a symbol and
a USD price. `priceUsd` is `none` when the JSON record carries no price
(JavaScript `undefined`). -/
structure Asset where
  symbol : String
  priceUsd : Option ℚ
deriving DecidableEq

/-- Characters kept by the input-cleaning regex `/[^0-9.]/g` replacement
(App.jsx:39 and App.jsx:261). -/
def isAmountChar (c : Char) : Bool := c.isDigit || c == '.'

/-- JavaScript `String.prototype.split(".")` on a list of characters:
splits at every `'.'`, keeping empty segments (so `"" → [""]`,
`".." → ["", "", ""]`). -/
def splitDots : List Char → List (List Char)
  | [] => [[]]
  | c :: cs =>
    if c = '.' then [] :: splitDots cs
    else
      match splitDots cs with
      | [] => [[c]]
      | p :: ps => (c :: p) :: ps

/-- The multiple-decimal-point collapse of App.jsx:40-43 and App.jsx:262-265:
`parts.length > 2 ? parts[0] + "." + parts.slice(1).join("") : value`. -/
def collapseChars (l : List Char) : List Char :=
  let parts := splitDots l
  if parts.length > 2 then parts.headD [] ++ '.' :: (parts.drop 1).flatten
  else l

/-- The full input cleaning shared by the Zod transform (App.jsx:38-44) and
`handleInputChange` (App.jsx:260-265): strip everything but digits and dots,
then collapse several dots into one. -/
def cleanAmount (s : String) : String :=
  String.mk (collapseChars (s.data.filter isAmountChar))

/-- Numeric value of a list of decimal digit characters, most significant
first. -/
def digitsVal (l : List Char) : ℕ :=
  l.foldl (fun acc c => 10 * acc + (c.toNat - 48)) 0

/-- JavaScript `parseFloat`, restricted to the argument shapes that occur in
this component (strings over digits and dots, as produced by `cleanAmount`
and `toFixed`): the longest prefix of the form `digits [. digits]` is parsed;
`none` models `NaN` (no digit in the prefix). -/
def jsParseFloat (s : String) : Option ℚ :=
  let ip := s.data.takeWhile Char.isDigit
  match s.data.dropWhile Char.isDigit with
  | '.' :: rest =>
    let fp := rest.takeWhile Char.isDigit
    if ip.isEmpty && fp.isEmpty then none
    else some ((digitsVal ip : ℚ) + (digitsVal fp : ℚ) / (10 : ℚ) ^ fp.length)
  | _ => if ip.isEmpty then none else some (digitsVal ip : ℚ)

/-- Decimal digit characters of a natural number, most significant first.
The first argument is fuel; it is decremented once per produced digit, so
`n + 1` always suffices. -/
def natDigitsAux : ℕ → ℕ → List Char → List Char
  | 0, _, acc => acc
  | fuel + 1, n, acc =>
    if n < 10 then Char.ofNat (48 + n) :: acc
    else natDigitsAux fuel (n / 10) (Char.ofNat (48 + n % 10) :: acc)

/-- Decimal rendering of a natural number. -/
def natChars (n : ℕ) : List Char := natDigitsAux (n + 1) n []

/-- Left-pad a digit list with `'0'` to width `k`. -/
def padZeros (k : ℕ) (l : List Char) : List Char :=
  List.replicate (k - l.length) '0' ++ l

/-- Render `n` (a count of `10 ^ -8` units) as `"<int>.<8 digits>"`. -/
def fixedChars (n : ℕ) : List Char :=
  natChars (n / 100000000) ++ '.' :: padZeros 8 (natChars (n % 100000000))

/-- ECMAScript `Number.prototype.toFixed(8)` over exact rationals: the integer
`n` closest to `|q| * 10^8` (ties toward the larger `n`) rendered with eight
fractional digits, with a sign for negative inputs. Used at App.jsx:146 and
App.jsx:162. -/
def jsToFixed8 (q : ℚ) : String :=
  if q < 0 then String.mk ('-' :: fixedChars (-q * 100000000 + 1 / 2).floor.toNat)
  else String.mk (fixedChars (q * 100000000 + 1 / 2).floor.toNat)

/-- Rounding used by the success message `parseFloat(...).toFixed(4)`
(App.jsx:247-248), as a rational: round to 4 fractional digits, ties up. -/
def round4 (q : ℚ) : ℚ := ((q * 10000 + 1 / 2).floor : ℚ) / 10000

/-- `SLIPPAGE_RATE` (App.jsx:29). -/
def SLIPPAGE_RATE : ℚ := 3 / 1000

/-- `MAX_BALANCE` (App.jsx:31). -/
def MAX_BALANCE : ℚ := 1000

/-- `exchangeRate` (App.jsx:104-109): `fromToken.priceUsd / toToken.priceUsd`
when `fromToken.priceUsd && toToken.priceUsd && toToken.priceUsd > 0`
(JavaScript truthiness: defined and nonzero), else the sentinel `0`. -/
def exchangeRate (a b : Asset) : ℚ :=
  match a.priceUsd, b.priceUsd with
  | some p, some q => if p ≠ 0 ∧ q ≠ 0 ∧ 0 < q then p / q else 0
  | _, _ => 0

/-- `calculateAmount` (App.jsx:112-122). The `isNaN` guard cannot fire on the
rational model (the callers parse first), so the guard is `amount ≤ 0` or
`rate ≤ 0`. -/
def calculateAmount (amount rate : ℚ) (isReverse : Bool) : ℚ :=
  if amount ≤ 0 ∨ rate ≤ 0 then 0
  else
    if isReverse then amount / (rate * (1 - SLIPPAGE_RATE))
    else amount * (rate * (1 - SLIPPAGE_RATE))

/-- The failure modes of the `fromAmount` Zod schema (App.jsx:33-61), in the
order their checks run. -/
inductive SwapError where
  | emptyAmount
  | notANumber
  | nonPositive
  | exceedsBalance
deriving DecidableEq

deriving instance DecidableEq for Except

/-- `createSwapSchema(maxBalance, _).fromAmount` (App.jsx:33-58) as a
first-failure validator: raw nonempty check, cleaning transform, cleaned
nonempty check, `parseFloat` checks in order, success carries the cleaned
text. -/
def validateAmount (maxBalance : ℚ) (raw : String) : Except SwapError String :=
  if raw = "" then .error .emptyAmount
  else
    let cleaned := cleanAmount raw
    if cleaned = "" then .error .emptyAmount
    else
      match jsParseFloat cleaned with
      | none => .error .notANumber
      | some v =>
        if v ≤ 0 then .error .nonPositive
        else if maxBalance < v then .error .exceedsBalance
        else .ok cleaned

/-- The validator as the specification words it (spec §4.3): clean first,
then fail on the cleaned text being empty, unparsable, non-positive, or above
the balance, in that order. -/
def validatorSpec (maxBalance : ℚ) (raw : String) : Except SwapError String :=
  let cleaned := cleanAmount raw
  if cleaned = "" then .error .emptyAmount
  else
    match jsParseFloat cleaned with
    | none => .error .notANumber
    | some v =>
      if v ≤ 0 then .error .nonPositive
      else if maxBalance < v then .error .exceedsBalance
      else .ok cleaned

/-- The rate resolver as the specification words it (spec §4.1): the quotient
whenever both prices are defined and the target price is positive, else the
sentinel `0`. -/
def rateResolverSpec (a b : Asset) : ℚ :=
  match a.priceUsd, b.priceUsd with
  | some p, some q => if 0 < q then p / q else 0
  | _, _ => 0

/-- Which amount field last drove the computation (`lastUpdatedField`,
App.jsx:71). -/
inductive DriveField where
  | fromField
  | toField
deriving DecidableEq

/-- The component state: tokens, the two raw amount texts, the driving field,
the in-flight flag (`isSwapping`), the `fromAmount` validation error held by
react-hook-form, and the numeric content of the last success message (`none`
before any settlement or when the message would read `NaN`). -/
structure SwapState where
  fromToken : Asset
  toToken : Asset
  fromAmount : String
  toAmount : String
  lastUpdatedField : Option DriveField
  isSwapping : Bool
  fromError : Option SwapError
  successValue : Option ℚ
deriving DecidableEq

/-- The user/timer events the component reacts to. -/
inductive Event where
  | editFrom (raw : String)
  | editTo (raw : String)
  | selectFrom (t : Asset)
  | selectTo (t : Asset)
  | swapDirection
  | submitAttempt
  | settleTimer
deriving DecidableEq

/-- The amount-sync `useEffect` (App.jsx:124-164): with an unavailable rate
both fields are blanked; otherwise the driving field, if any, is parsed and
the opposite field is rewritten with the 8-digit conversion (the reverse
branch also clears the `fromAmount` error, App.jsx:163). -/
def runSyncEffect (s : SwapState) : SwapState :=
  if exchangeRate s.fromToken s.toToken ≤ 0 then
    { s with toAmount := "", fromAmount := "" }
  else
    match s.lastUpdatedField with
    | some .fromField =>
      match jsParseFloat s.fromAmount with
      | none => { s with toAmount := "" }
      | some a =>
        if a ≤ 0 then { s with toAmount := "" }
        else
          { s with toAmount :=
              jsToFixed8 (calculateAmount a (exchangeRate s.fromToken s.toToken) false) }
    | some .toField =>
      match jsParseFloat s.toAmount with
      | none => { s with fromAmount := "" }
      | some a =>
        if a ≤ 0 then { s with fromAmount := "" }
        else
          { s with
              fromAmount :=
                jsToFixed8 (calculateAmount a (exchangeRate s.fromToken s.toToken) true)
              fromError := none }
    | none => s

/-- First half of the token-change `useEffect` (App.jsx:177-182): when the
two symbols collide, reassign `toToken` to the first listed token with a
different symbol (no-op when the search finds none). -/
def reassignToToken (tokens : List Asset) (s : SwapState) : SwapState :=
  if s.fromToken.symbol = s.toToken.symbol then
    match tokens.find? (fun t => t.symbol != s.fromToken.symbol) with
    | some t => { s with toToken := t }
    | none => s
  else s

/-- The token-change `useEffect` (App.jsx:176-188): the reassignment above,
then unconditionally blank both amounts, clear the `fromAmount` error, and
drop the driving field. -/
def runTokenChangeEffect (tokens : List Asset) (s : SwapState) : SwapState :=
  { reassignToToken tokens s with
      fromAmount := "", toAmount := "", fromError := none, lastUpdatedField := none }

/-- The error component of a validation outcome, if any. -/
def errOf : Except SwapError String → Option SwapError
  | .error e => some e
  | .ok _ => none

/-- `handleInputChange` (App.jsx:260-271): clean the keystroke text, store it
in the edited field, validate it when the edited field is `fromAmount`
(`shouldValidate: fieldName === "fromAmount"`), and mark the field as
driving. -/
def editHandler (f : DriveField) (raw : String) (s : SwapState) : SwapState :=
  match f with
  | .fromField =>
    { s with fromAmount := cleanAmount raw,
             fromError := errOf (validateAmount MAX_BALANCE (cleanAmount raw)),
             lastUpdatedField := some .fromField }
  | .toField =>
    { s with toAmount := cleanAmount raw, lastUpdatedField := some .toField }

/-- `handleSwapTokens` (App.jsx:200-212): exchange the tokens, exchange the
two raw texts, make `from` the driver, clear the `fromAmount` error. -/
def swapHandler (s : SwapState) : SwapState :=
  { s with fromToken := s.toToken, toToken := s.fromToken,
           fromAmount := s.toAmount, toAmount := s.fromAmount,
           lastUpdatedField := some .fromField, fromError := none }

/-- The rate-unavailable flag `rateError` (App.jsx:273). -/
def rateErrorFlag (s : SwapState) : Bool :=
  decide (exchangeRate s.fromToken s.toToken ≤ 0)

/-- Whether `generalError` (App.jsx:274-276) holds a nonempty message. -/
def generalErrorFlag (s : SwapState) : Bool :=
  rateErrorFlag s || s.fromError.isSome

/-- The submit button's `disabled` expression (App.jsx:410-416). JavaScript
`parseFloat(x) <= 0` is false on `NaN`, hence the `none => false` branch. -/
def submitDisabled (s : SwapState) : Bool :=
  s.isSwapping || s.fromAmount == "" ||
    (match jsParseFloat s.fromAmount with
     | some v => decide (v ≤ 0)
     | none => false) ||
    generalErrorFlag s || rateErrorFlag s

/-- The `disabled` attribute of the `toAmount` input control (App.jsx:357). -/
def toInputDisabled (s : SwapState) : Bool := s.isSwapping

/-- A submission attempt: a disabled button ignores it; otherwise
react-hook-form runs the schema (recording a failure in `errors.fromAmount`),
and on success `onSubmit` (App.jsx:220-242) runs its identical-symbol and
rate guards before setting `isSwapping`. -/
def attemptSubmit (s : SwapState) : SwapState :=
  if submitDisabled s then s
  else
    match validateAmount MAX_BALANCE s.fromAmount with
    | .error e => { s with fromError := some e }
    | .ok _ =>
      if s.fromToken.symbol = s.toToken.symbol then s
      else if exchangeRate s.fromToken s.toToken ≤ 0 then s
      else { s with isSwapping := true }

/-- The `setTimeout` completion body (App.jsx:244-256): stop the spinner,
report `parseFloat(watchedToAmount).toFixed(4)` in the success message, blank
both fields, drop the driver, clear the `fromAmount` error. -/
def stepSettle (s : SwapState) : SwapState :=
  { s with isSwapping := false,
           successValue := (jsParseFloat s.toAmount).map round4,
           fromAmount := "", toAmount := "",
           lastUpdatedField := none, fromError := none }

/-- One complete state transition: the event handler followed by the effect
cascade run to its fixpoint. Edits re-trigger only the sync effect; token
selections and the direction swap re-trigger the sync effect and then the
token-change effect (which, by blanking both fields and dropping the driver,
makes every later effect pass a no-op); submission and settlement touch no
effect dependency beyond what their own bodies already settle. -/
def step (tokens : List Asset) (e : Event) (s : SwapState) : SwapState :=
  match e with
  | .editFrom raw => runSyncEffect (editHandler .fromField raw s)
  | .editTo raw => runSyncEffect (editHandler .toField raw s)
  | .selectFrom t => runTokenChangeEffect tokens (runSyncEffect { s with fromToken := t })
  | .selectTo t => runTokenChangeEffect tokens (runSyncEffect { s with toToken := t })
  | .swapDirection => runTokenChangeEffect tokens (runSyncEffect (swapHandler s))
  | .submitAttempt => attemptSubmit s
  | .settleTimer => stepSettle s

/-- Fallback asset for the (out-of-bounds) `TOKENS[0]` / `TOKENS[1]` accesses
in App.jsx:64-65 when the list is too short. -/
def dummyAsset : Asset := ⟨"", none⟩

/-- The state built by the `useState` initializers (App.jsx:64-95): ETH and
USDC by symbol if present, else the first two listed tokens, empty amounts,
no driver, not in flight. -/
def initState (tokens : List Asset) : SwapState :=
  { fromToken := (tokens.find? (fun t => t.symbol == "ETH")).getD (tokens.headD dummyAsset),
    toToken := (tokens.find? (fun t => t.symbol == "USDC")).getD ((tokens.drop 1).headD dummyAsset),
    fromAmount := "", toAmount := "", lastUpdatedField := none,
    isSwapping := false, fromError := none, successValue := none }

/-- The initial state after the mount-time effect pass (both effects run once
on mount, in declaration order). -/
def mountedInit (tokens : List Asset) : SwapState :=
  runTokenChangeEffect tokens (runSyncEffect (initState tokens))

/-- The states the component can actually be in: the mounted initial state
and everything `step` reaches from it. -/
inductive Reachable (tokens : List Asset) : SwapState → Prop where
  | init : Reachable tokens (mountedInit tokens)
  | next (e : Event) {s : SwapState} :
      Reachable tokens s → Reachable tokens (step tokens e s)

/-- A raw amount text is empty or made of digits with at most one decimal
point. -/
def wellFormedAmount (x : String) : Prop :=
  x = "" ∨ ((∀ c ∈ x.data, isAmountChar c = true) ∧ x.data.count '.' ≤ 1)

/-- Concrete asset `A(priceUsd = 2000)` from the spec's worked scenario. -/
def tokA : Asset := ⟨"A", some 2000⟩

/-- Concrete asset `B(priceUsd = 1)` from the spec's worked scenario. -/
def tokB : Asset := ⟨"B", some 1⟩

/-- A two-asset canonical token list for concrete runs. -/
def demoTokens : List Asset := [tokA, tokB]

/-- Concrete asset with price 1, used for the settlement counterexample. -/
def tokP : Asset := ⟨"P", some 1⟩

/-- Concrete asset with price 2000, used for the settlement counterexample. -/
def tokQ : Asset := ⟨"Q", some 2000⟩

/-- Token list for the settlement counterexample. -/
def cexTokens : List Asset := [tokP, tokQ]

/-- Asset with a zero price, for rate-unavailability runs. -/
def tokZ : Asset := ⟨"Z", some 0⟩

/-- Token list whose second entry (the default `toToken`) has price zero. -/
def zeroTokens : List Asset := [tokP, tokZ]

end SwapApp

namespace SwapApp

unseal Rat.mul Rat.add Rat.inv Rat.sub

/-- Claim C6: the exchange-rate resolver returns
`fromAsset.priceUsd / toAsset.priceUsd` exactly when both prices are defined
and `toAsset.priceUsd > 0`, and the sentinel `0` in every other case (total,
so it can neither throw nor produce an infinity or a NaN). -/
theorem claim_C6_rate_resolver (a b : Asset) : exchangeRate a b = rateResolverSpec a b := by
  unfold exchangeRate rateResolverSpec
  cases ha : a.priceUsd <;> cases hb : b.priceUsd <;> simp only
  case some.some p q =>
    by_cases hq : 0 < q
    · by_cases hp : p = 0
      · subst hp
        simp [hq, zero_div]
      · simp [hp, hq, ne_of_gt hq]
    · simp [hq]

/-- Claim C3: the amount validator first cleans the raw text (strip
non-digit-non-dot characters, collapse extra decimal points), then fails in
order EmptyAmount, NotANumber, NonPositive, ExceedsBalance, else succeeds
with the cleaned text; in particular `"0"` is NonPositive, `maxBalance`
exactly succeeds, `maxBalance + 0.01` exceeds, and `"12.34.56"` is cleaned to
`"12.3456"` and accepted. -/
theorem claim_C3_validator :
    (∀ (maxBalance : ℚ) (raw : String),
        validateAmount maxBalance raw = validatorSpec maxBalance raw) ∧
    validateAmount MAX_BALANCE "0" = .error .nonPositive ∧
    validateAmount MAX_BALANCE "1000" = .ok "1000" ∧
    validateAmount MAX_BALANCE "1000.01" = .error .exceedsBalance ∧
    validateAmount MAX_BALANCE "12.34.56" = .ok "12.3456" := by
  refine ⟨?_, by decide, by decide, by decide, by decide⟩
  intro maxBalance raw
  unfold validateAmount validatorSpec
  by_cases h : raw = ""
  · subst h; rfl
  · rw [if_neg h]

/-- Claim C2: for a positive amount and two assets with positive prices, the
converter applied Forward and then Reverse at the same slippage-adjusted rate
recovers the original amount to within `1e-6` (it recovers it exactly over
the rationals). -/
theorem claim_C2_roundtrip (a b : Asset) (p q : ℚ)
    (hap : a.priceUsd = some p) (hbq : b.priceUsd = some q)
    (hp : 0 < p) (hq : 0 < q) (amount : ℚ) (hamt : 0 < amount) :
    |calculateAmount (calculateAmount amount (exchangeRate a b) false)
        (exchangeRate a b) true - amount| ≤ 1 / 1000000 := by
  have hr : 0 < exchangeRate a b := by
    simp only [exchangeRate, hap, hbq]
    rw [if_pos ⟨ne_of_gt hp, ne_of_gt hq, hq⟩]
    exact div_pos hp hq
  have hadj : 0 < exchangeRate a b * (1 - SLIPPAGE_RATE) := by
    apply mul_pos hr
    norm_num [SLIPPAGE_RATE]
  have h1 : calculateAmount amount (exchangeRate a b) false
      = amount * (exchangeRate a b * (1 - SLIPPAGE_RATE)) := by
    unfold calculateAmount
    rw [if_neg (by push_neg; exact ⟨hamt, hr⟩)]
    rfl
  have h2 : calculateAmount (amount * (exchangeRate a b * (1 - SLIPPAGE_RATE)))
      (exchangeRate a b) true = amount := by
    unfold calculateAmount
    rw [if_neg (by push_neg; exact ⟨mul_pos hamt hadj, hr⟩)]
    show amount * (exchangeRate a b * (1 - SLIPPAGE_RATE))
        / (exchangeRate a b * (1 - SLIPPAGE_RATE)) = amount
    exact mul_div_cancel_right₀ amount (ne_of_gt hadj)
  rw [h1, h2, sub_self, abs_zero]
  norm_num

/-- Witness for C2 at `A(2000)`, `B(1)`, amount `10`. -/
theorem claim_C2_roundtrip_witness :
    (0:ℚ) < 2000 ∧ (0:ℚ) < 1 ∧ (0:ℚ) < 10 ∧
    |calculateAmount (calculateAmount 10 (exchangeRate tokA tokB) false)
        (exchangeRate tokA tokB) true - 10| ≤ 1 / 1000000 :=
  ⟨by norm_num, by norm_num, by norm_num,
    claim_C2_roundtrip tokA tokB 2000 1 rfl rfl (by norm_num) (by norm_num) 10 (by norm_num)⟩

/-- Claim C7: with `A(2000)` and `B(1)` and slippage `0.003`, typing `"10"`
into the from field while it drives uses the adjusted rate
`2000 * 0.997 = 1994` and writes `toAmount = "19940.00000000"`; then editing
`toAmount` to `"19940"` while it drives recomputes
`fromAmount = "10.00000000"`. -/
theorem claim_C7_scenario :
    exchangeRate tokA tokB * (1 - SLIPPAGE_RATE) = 1994 ∧
    (step demoTokens (Event.editFrom "10") (mountedInit demoTokens)).fromAmount = "10" ∧
    (step demoTokens (Event.editFrom "10") (mountedInit demoTokens)).lastUpdatedField
      = some DriveField.fromField ∧
    (step demoTokens (Event.editFrom "10") (mountedInit demoTokens)).toAmount
      = "19940.00000000" ∧
    (step demoTokens (Event.editTo "19940")
        (step demoTokens (Event.editFrom "10") (mountedInit demoTokens))).lastUpdatedField
      = some DriveField.toField ∧
    (step demoTokens (Event.editTo "19940")
        (step demoTokens (Event.editFrom "10") (mountedInit demoTokens))).toAmount
      = "19940" ∧
    (step demoTokens (Event.editTo "19940")
        (step demoTokens (Event.editFrom "10") (mountedInit demoTokens))).fromAmount
      = "10.00000000" := by
  decide

/-- Claim C4 (evaluation): at a concrete state holding typed amounts, the
swap-direction transition does not exchange the amount texts; the token-change
effect (App.jsx:176-188) fires on the swapped assets and unconditionally
blanks both fields and drops the driving field. -/
theorem claim_C4_swap_eval :
    step demoTokens Event.swapDirection
        { fromToken := tokA, toToken := tokB, fromAmount := "10",
          toAmount := "19940.00000000",
          lastUpdatedField := some DriveField.fromField,
          isSwapping := false, fromError := none, successValue := none }
      = { fromToken := tokB, toToken := tokA, fromAmount := "", toAmount := "",
          lastUpdatedField := none, isSwapping := false, fromError := none,
          successValue := none } := by
  decide

/-- Claim C8: while a settlement is in flight, a further submission attempt
leaves the entire state unchanged, and the to-amount input control is
disabled. -/
theorem claim_C8_inflight (tokens : List Asset) (s : SwapState)
    (h : s.isSwapping = true) :
    step tokens Event.submitAttempt s = s ∧ toInputDisabled s = true := by
  refine ⟨?_, h⟩
  show attemptSubmit s = s
  unfold attemptSubmit
  rw [if_pos (by simp [submitDisabled, h])]

/-- Witness for C8 at the in-flight state reached by typing `"10"` and
submitting. -/
theorem claim_C8_inflight_witness :
    step demoTokens Event.submitAttempt
        (step demoTokens Event.submitAttempt
          (step demoTokens (Event.editFrom "10") (mountedInit demoTokens)))
      = step demoTokens Event.submitAttempt
          (step demoTokens (Event.editFrom "10") (mountedInit demoTokens)) ∧
    toInputDisabled
        (step demoTokens Event.submitAttempt
          (step demoTokens (Event.editFrom "10") (mountedInit demoTokens))) = true :=
  claim_C8_inflight demoTokens _ (by decide)


/-- Claim C9 (counterexample): a settlement completing on
`toAmount = "0.00049850"` (typed `"1"` with prices 1 and 2000) reports
`0.0005`, the 4-digit rounding, not the computed to-amount `0.0004985`
itself. -/
theorem claim_C9_counterexample :
    (step cexTokens Event.settleTimer
        (step cexTokens Event.submitAttempt
          (step cexTokens (Event.editFrom "1") (mountedInit cexTokens)))).successValue
      = some (1 / 2000) ∧
    jsParseFloat
        (step cexTokens Event.submitAttempt
          (step cexTokens (Event.editFrom "1") (mountedInit cexTokens))).toAmount
      = some (997 / 2000000) ∧
    some ((1:ℚ) / 2000) ≠ some ((997:ℚ) / 2000000) := by
  decide

/-- Claim C9 (amended): an accepted submission (enabled button, validator
success, distinct symbols) sets `inFlight` and changes nothing else; the
timer completion then reports the last computed to-amount rounded to 4
fractional digits, blanks both amount fields, drops the driving field, and
clears `inFlight`. -/
theorem claim_C9_settlement (tokens : List Asset) (s : SwapState)
    (hd : submitDisabled s = false)
    (hv : errOf (validateAmount MAX_BALANCE s.fromAmount) = none)
    (hsym : s.fromToken.symbol ≠ s.toToken.symbol) :
    step tokens Event.submitAttempt s = { s with isSwapping := true } ∧
    step tokens Event.settleTimer { s with isSwapping := true }
      = { s with isSwapping := false,
                 successValue := (jsParseFloat s.toAmount).map round4,
                 fromAmount := "", toAmount := "",
                 lastUpdatedField := none, fromError := none } := by
  have hrate : ¬ exchangeRate s.fromToken s.toToken ≤ 0 := by
    intro hle
    have : rateErrorFlag s = true := by
      unfold rateErrorFlag
      exact decide_eq_true hle
    simp [submitDisabled, generalErrorFlag, this] at hd
  constructor
  · show attemptSubmit s = _
    unfold attemptSubmit
    rw [if_neg (by rw [hd]; exact Bool.false_ne_true)]
    cases hval : validateAmount MAX_BALANCE s.fromAmount with
    | error e => rw [hval] at hv; exact absurd hv (by simp [errOf])
    | ok x =>
      show (if s.fromToken.symbol = s.toToken.symbol then s
            else if exchangeRate s.fromToken s.toToken ≤ 0 then s
            else { s with isSwapping := true }) = { s with isSwapping := true }
      rw [if_neg hsym, if_neg hrate]
  · rfl

/-- Witness for the amended C9 at the state reached by typing `"10"` with
prices 2000 and 1. -/
theorem claim_C9_settlement_witness :
    submitDisabled (step demoTokens (Event.editFrom "10") (mountedInit demoTokens)) = false ∧
    (step demoTokens Event.submitAttempt
        (step demoTokens (Event.editFrom "10") (mountedInit demoTokens))).isSwapping = true ∧
    (step demoTokens Event.settleTimer
        (step demoTokens Event.submitAttempt
          (step demoTokens (Event.editFrom "10") (mountedInit demoTokens)))).successValue
      = some 19940 := by
  have h := claim_C9_settlement demoTokens
    (step demoTokens (Event.editFrom "10") (mountedInit demoTokens))
    (by decide) (by decide) (by decide)
  refine ⟨by decide, ?_, ?_⟩
  · rw [h.1]
  · rw [h.1, h.2]
    decide

/-- `splitDots` always returns at least one segment. -/
theorem splitDots_ne_nil (l : List Char) : splitDots l ≠ [] := by
  induction l with
  | nil => simp [splitDots]
  | cons c cs ih =>
    unfold splitDots
    by_cases h : c = '.'
    · simp [h]
    · rw [if_neg h]
      cases h2 : splitDots cs with
      | nil => simp
      | cons p ps => simp

/-- `splitDots` produces one more segment than there are dots. -/
theorem length_splitDots (l : List Char) : (splitDots l).length = l.count '.' + 1 := by
  induction l with
  | nil => rfl
  | cons c cs ih =>
    unfold splitDots
    by_cases h : c = '.'
    · subst h
      rw [if_pos rfl]
      simp only [List.length_cons, ih, List.count_cons_self]
    · rw [if_neg h]
      cases h2 : splitDots cs with
      | nil => exact absurd h2 (splitDots_ne_nil cs)
      | cons p ps =>
        have hlen : (p :: ps).length = cs.count '.' + 1 := by rw [← h2, ih]
        have hc : ('.' : Char) ≠ c := fun hh => h hh.symm
        simp only [List.length_cons] at hlen ⊢
        rw [List.count_cons_of_ne hc]
        omega

/-- No segment returned by `splitDots` contains a dot. -/
theorem mem_splitDots_no_dot {l p : List Char} (hp : p ∈ splitDots l) : '.' ∉ p := by
  induction l generalizing p with
  | nil =>
    simp only [splitDots, List.mem_singleton] at hp
    subst hp
    simp
  | cons d cs ih =>
    unfold splitDots at hp
    by_cases h : d = '.'
    · rw [if_pos h] at hp
      rcases List.mem_cons.mp hp with rfl | hp2
      · simp
      · exact ih hp2
    · rw [if_neg h] at hp
      cases h2 : splitDots cs with
      | nil => exact absurd h2 (splitDots_ne_nil cs)
      | cons q qs =>
        rw [h2] at hp
        rcases List.mem_cons.mp hp with rfl | hp2
        · intro hmem
          rcases List.mem_cons.mp hmem with hh | hh
          · exact h hh.symm
          · exact ih (by rw [h2]; exact List.mem_cons_self q qs) hh
        · exact ih (by rw [h2]; exact List.mem_cons_of_mem q hp2)

/-- Every character of a `splitDots` segment comes from the input. -/
theorem mem_of_mem_splitDots {l p : List Char} (hp : p ∈ splitDots l) {c : Char}
    (hc : c ∈ p) : c ∈ l := by
  induction l generalizing p with
  | nil =>
    simp only [splitDots, List.mem_singleton] at hp
    subst hp
    simp at hc
  | cons d cs ih =>
    unfold splitDots at hp
    by_cases h : d = '.'
    · rw [if_pos h] at hp
      rcases List.mem_cons.mp hp with rfl | hp2
      · simp at hc
      · exact List.mem_cons_of_mem d (ih hp2 hc)
    · rw [if_neg h] at hp
      cases h2 : splitDots cs with
      | nil => exact absurd h2 (splitDots_ne_nil cs)
      | cons q qs =>
        rw [h2] at hp
        rcases List.mem_cons.mp hp with rfl | hp2
        · rcases List.mem_cons.mp hc with rfl | hc2
          · exact List.mem_cons_self c cs
          · exact List.mem_cons_of_mem d
              (ih (by rw [h2]; exact List.mem_cons_self q qs) hc2)
        · exact List.mem_cons_of_mem d
            (ih (by rw [h2]; exact List.mem_cons_of_mem q hp2) hc)

/-- The cleaning step always yields a well-formed amount text. -/
theorem wellFormed_cleanAmount (raw : String) : wellFormedAmount (cleanAmount raw) := by
  right
  have hdata : (cleanAmount raw).data = collapseChars (raw.data.filter isAmountChar) := rfl
  set l := raw.data.filter isAmountChar with hl
  have hfil : ∀ c ∈ l, isAmountChar c = true := fun c hc => (List.mem_filter.mp hc).2
  rw [hdata]
  unfold collapseChars
  by_cases hlen : (splitDots l).length > 2
  · rw [if_pos hlen]
    have hhead : (splitDots l).headD [] ∈ splitDots l := by
      cases h2 : splitDots l with
      | nil => exact absurd h2 (splitDots_ne_nil l)
      | cons p ps => exact List.mem_cons_self p ps
    constructor
    · intro c hc
      rcases List.mem_append.mp hc with hc1 | hc2
      · exact hfil c (mem_of_mem_splitDots hhead hc1)
      · rcases List.mem_cons.mp hc2 with rfl | hc3
        · rfl
        · obtain ⟨q, hq, hcq⟩ := List.mem_flatten.mp hc3
          exact hfil c
            (mem_of_mem_splitDots (List.mem_of_mem_drop hq) hcq)
    · rw [List.count_append, List.count_cons_self,
        List.count_eq_zero_of_not_mem (mem_splitDots_no_dot hhead),
        List.count_eq_zero_of_not_mem ?_]
      · intro hmem
        obtain ⟨q, hq, hdot⟩ := List.mem_flatten.mp hmem
        exact mem_splitDots_no_dot (List.mem_of_mem_drop hq) hdot
  · rw [if_neg hlen]
    refine ⟨hfil, ?_⟩
    have := length_splitDots l
    omega

/-- A digit character rendered from a value below ten is a digit. -/
theorem isDigit_ofNat {n : ℕ} (h : n < 10) : (Char.ofNat (48 + n)).isDigit = true := by
  interval_cases n <;> decide

/-- `natDigitsAux` only prepends digit characters. -/
theorem natDigitsAux_digits (fuel : ℕ) : ∀ (n : ℕ) (acc : List Char),
    (∀ c ∈ acc, c.isDigit = true) → ∀ c ∈ natDigitsAux fuel n acc, c.isDigit = true := by
  induction fuel with
  | zero => intro n acc hacc; exact hacc
  | succ fuel ih =>
    intro n acc hacc
    unfold natDigitsAux
    by_cases h : n < 10
    · rw [if_pos h]
      intro c hc
      rcases List.mem_cons.mp hc with rfl | hc2
      · exact isDigit_ofNat h
      · exact hacc c hc2
    · rw [if_neg h]
      refine ih (n / 10) _ ?_
      intro c hc
      rcases List.mem_cons.mp hc with rfl | hc2
      · exact isDigit_ofNat (Nat.mod_lt n (by norm_num))
      · exact hacc c hc2

/-- Every character of `natChars` is a digit. -/
theorem natChars_digits (n : ℕ) : ∀ c ∈ natChars n, c.isDigit = true :=
  natDigitsAux_digits (n + 1) n [] (by simp)

/-- A dot never appears in `natChars`. -/
theorem not_dot_mem_natChars (n : ℕ) : '.' ∉ natChars n := by
  intro h
  have := natChars_digits n '.' h
  simp at this

/-- An 8-digit fixed rendering of a nonnegative rational is a well-formed
amount text. -/
theorem wellFormed_jsToFixed8 {q : ℚ} (h : 0 ≤ q) : wellFormedAmount (jsToFixed8 q) := by
  right
  have hdata : (jsToFixed8 q).data
      = fixedChars (q * 100000000 + 1 / 2).floor.toNat := by
    unfold jsToFixed8
    rw [if_neg (not_lt.mpr h)]
  rw [hdata]
  unfold fixedChars
  set a := (q * 100000000 + 1 / 2).floor.toNat / 100000000 with ha
  set b := (q * 100000000 + 1 / 2).floor.toNat % 100000000 with hb
  constructor
  · intro c hc
    rcases List.mem_append.mp hc with hc1 | hc2
    · unfold isAmountChar
      rw [natChars_digits a c hc1]
      rfl
    · rcases List.mem_cons.mp hc2 with rfl | hc3
      · rfl
      · unfold padZeros at hc3
        rcases List.mem_append.mp hc3 with hc4 | hc5
        · have := List.eq_of_mem_replicate hc4
          subst this
          rfl
        · unfold isAmountChar
          rw [natChars_digits b c hc5]
          rfl
  · rw [List.count_append, List.count_cons_self,
      List.count_eq_zero_of_not_mem (not_dot_mem_natChars a),
      List.count_eq_zero_of_not_mem ?_]
    · intro hmem
      unfold padZeros at hmem
      rcases List.mem_append.mp hmem with hc4 | hc5
      · have := List.eq_of_mem_replicate hc4
        simp at this
      · exact not_dot_mem_natChars b hc5

/-- The converter returns a positive result on positive inputs. -/
theorem calculateAmount_pos {a r : ℚ} (ha : 0 < a) (hr : 0 < r) (dir : Bool) :
    0 < calculateAmount a r dir := by
  unfold calculateAmount
  rw [if_neg (by push_neg; exact ⟨ha, hr⟩)]
  have hadj : 0 < r * (1 - SLIPPAGE_RATE) := by
    apply mul_pos hr
    norm_num [SLIPPAGE_RATE]
  cases dir with
  | false =>
    show 0 < a * (r * (1 - SLIPPAGE_RATE))
    exact mul_pos ha hadj
  | true =>
    show 0 < a / (r * (1 - SLIPPAGE_RATE))
    exact div_pos ha hadj


/-- The sync effect only rewrites the amount texts and the `fromAmount`
error. -/
theorem runSyncEffect_shape (s : SwapState) :
    ∃ fa ta fe, runSyncEffect s
      = { s with fromAmount := fa, toAmount := ta, fromError := fe } := by
  unfold runSyncEffect
  repeat' split
  all_goals exact ⟨_, _, _, rfl⟩

/-- The sync effect leaves tokens, driving field, in-flight flag and success
value untouched. -/
theorem runSyncEffect_frame (s : SwapState) :
    (runSyncEffect s).fromToken = s.fromToken ∧
    (runSyncEffect s).toToken = s.toToken ∧
    (runSyncEffect s).lastUpdatedField = s.lastUpdatedField ∧
    (runSyncEffect s).isSwapping = s.isSwapping ∧
    (runSyncEffect s).successValue = s.successValue := by
  obtain ⟨fa, ta, fe, h⟩ := runSyncEffect_shape s
  rw [h]
  exact ⟨rfl, rfl, rfl, rfl, rfl⟩

/-- An unavailable rate makes the sync effect blank both fields. -/
theorem runSyncEffect_rate_nonpos {s : SwapState}
    (h : exchangeRate s.fromToken s.toToken ≤ 0) :
    runSyncEffect s = { s with fromAmount := "", toAmount := "" } := by
  unfold runSyncEffect
  rw [if_pos h]

/-- The reassignment step never touches `fromToken` or the non-token
fields. -/
theorem reassignToToken_shape (tokens : List Asset) (s : SwapState) :
    ∃ tt, reassignToToken tokens s = { s with toToken := tt } := by
  unfold reassignToToken
  repeat' split
  all_goals exact ⟨_, rfl⟩

/-- The token-change effect rewrites only `toToken`, blanks both amounts,
clears the error, and drops the driver. -/
theorem runTokenChangeEffect_shape (tokens : List Asset) (s : SwapState) :
    ∃ tt, runTokenChangeEffect tokens s
      = { s with toToken := tt, fromAmount := "", toAmount := "",
                 fromError := none, lastUpdatedField := none } := by
  obtain ⟨tt, h⟩ := reassignToToken_shape tokens s
  exact ⟨tt, by unfold runTokenChangeEffect; rw [h]⟩

/-- A token list holding two distinct symbols always yields a first token
avoiding any given symbol. -/
theorem find_ne_symbol {tokens : List Asset}
    (htwo : ∃ u ∈ tokens, ∃ v ∈ tokens, u.symbol ≠ v.symbol) (x : String) :
    ∃ w, tokens.find? (fun t => t.symbol != x) = some w ∧ w.symbol ≠ x := by
  obtain ⟨u, hu, v, hv, huv⟩ := htwo
  have hex : ∃ t, t ∈ tokens ∧ (t.symbol != x) = true := by
    by_cases h : u.symbol = x
    · refine ⟨v, hv, ?_⟩
      rw [bne_iff_ne]
      intro hvx
      exact huv (by rw [h, hvx])
    · exact ⟨u, hu, by rwa [bne_iff_ne]⟩
  obtain ⟨w, hw⟩ := Option.isSome_iff_exists.mp (List.find?_isSome.mpr hex)
  refine ⟨w, hw, ?_⟩
  have := List.find?_some hw
  rwa [bne_iff_ne] at this

/-- After the token-change effect the two symbols always differ, provided the
token list holds two distinct symbols. -/
theorem runTokenChangeEffect_distinct {tokens : List Asset}
    (htwo : ∃ u ∈ tokens, ∃ v ∈ tokens, u.symbol ≠ v.symbol) (s : SwapState) :
    (runTokenChangeEffect tokens s).fromToken.symbol
      ≠ (runTokenChangeEffect tokens s).toToken.symbol := by
  unfold runTokenChangeEffect reassignToToken
  by_cases h : s.fromToken.symbol = s.toToken.symbol
  · rw [if_pos h]
    obtain ⟨w, hw, hwx⟩ := find_ne_symbol htwo s.fromToken.symbol
    rw [hw]
    show s.fromToken.symbol ≠ w.symbol
    exact Ne.symm hwx
  · rw [if_neg h]
    exact h

/-- A disabled submit button makes the attempt a no-op. -/
theorem attemptSubmit_of_disabled {s : SwapState} (h : submitDisabled s = true) :
    attemptSubmit s = s := by
  unfold attemptSubmit
  rw [if_pos h]

/-- A submission attempt leaves the state unchanged, records a validation
error, or only raises the in-flight flag. -/
theorem attemptSubmit_shape (s : SwapState) :
    attemptSubmit s = s ∨
      (∃ e, attemptSubmit s = { s with fromError := some e }) ∨
      attemptSubmit s = { s with isSwapping := true } := by
  unfold attemptSubmit
  repeat' split
  all_goals first
    | exact Or.inl rfl
    | exact Or.inr (Or.inl ⟨_, rfl⟩)
    | exact Or.inr (Or.inr rfl)

/-- A submission attempt never changes tokens or amount texts. -/
theorem attemptSubmit_frame (s : SwapState) :
    (attemptSubmit s).fromToken = s.fromToken ∧
    (attemptSubmit s).toToken = s.toToken ∧
    (attemptSubmit s).fromAmount = s.fromAmount ∧
    (attemptSubmit s).toAmount = s.toAmount := by
  rcases attemptSubmit_shape s with h | ⟨e, h⟩ | h <;> rw [h] <;>
    exact ⟨rfl, rfl, rfl, rfl⟩

/-- A zero target price forces the sentinel rate. -/
theorem exchangeRate_toPrice_zero (a b : Asset) (h : b.priceUsd = some 0) :
    exchangeRate a b = 0 := by
  unfold exchangeRate
  rw [h]
  cases ha : a.priceUsd <;> simp

/-- A zero target price disables submission. -/
theorem submitDisabled_of_toPrice_zero (s : SwapState)
    (h : s.toToken.priceUsd = some 0) : submitDisabled s = true := by
  have hflag : rateErrorFlag s = true := by
    unfold rateErrorFlag
    rw [exchangeRate_toPrice_zero _ _ h]
    simp
  simp [submitDisabled, hflag]

/-- Claim C5: in every reachable state whose target asset has price zero
(rate unavailable), both amount fields are blank and submission is
disabled. -/
theorem claim_C5_rate_unavailable (tokens : List Asset) (s : SwapState)
    (h : Reachable tokens s) (h0 : s.toToken.priceUsd = some 0) :
    s.fromAmount = "" ∧ s.toAmount = "" ∧ submitDisabled s = true := by
  refine ?_
  have key : ∀ (u : SwapState), Reachable tokens u → u.toToken.priceUsd = some 0 →
      u.fromAmount = "" ∧ u.toAmount = "" := by
    intro u hu
    induction hu with
    | init =>
      intro _
      obtain ⟨tt, hshape⟩ := runTokenChangeEffect_shape tokens (runSyncEffect (initState tokens))
      rw [show mountedInit tokens
          = runTokenChangeEffect tokens (runSyncEffect (initState tokens)) from rfl, hshape]
      exact ⟨rfl, rfl⟩
    | next e hs ih =>
      rename_i u0
      intro h0
      cases e with
      | editFrom raw =>
        have htok : (runSyncEffect (editHandler .fromField raw u0)).toToken
            = u0.toToken := (runSyncEffect_frame _).2.1
        have hz : (editHandler .fromField raw u0).toToken.priceUsd = some 0 := by
          show u0.toToken.priceUsd = some 0
          rw [← htok]
          exact h0
        have hr : exchangeRate (editHandler .fromField raw u0).fromToken
            (editHandler .fromField raw u0).toToken ≤ 0 := by
          rw [exchangeRate_toPrice_zero _ _ hz]
        rw [show step tokens (Event.editFrom raw) u0
            = runSyncEffect (editHandler .fromField raw u0) from rfl,
          runSyncEffect_rate_nonpos hr]
        exact ⟨rfl, rfl⟩
      | editTo raw =>
        have htok : (runSyncEffect (editHandler .toField raw u0)).toToken
            = u0.toToken := (runSyncEffect_frame _).2.1
        have hz : (editHandler .toField raw u0).toToken.priceUsd = some 0 := by
          show u0.toToken.priceUsd = some 0
          rw [← htok]
          exact h0
        have hr : exchangeRate (editHandler .toField raw u0).fromToken
            (editHandler .toField raw u0).toToken ≤ 0 := by
          rw [exchangeRate_toPrice_zero _ _ hz]
        rw [show step tokens (Event.editTo raw) u0
            = runSyncEffect (editHandler .toField raw u0) from rfl,
          runSyncEffect_rate_nonpos hr]
        exact ⟨rfl, rfl⟩
      | selectFrom t =>
        obtain ⟨tt, hshape⟩ :=
          runTokenChangeEffect_shape tokens (runSyncEffect { u0 with fromToken := t })
        rw [show step tokens (Event.selectFrom t) u0
            = runTokenChangeEffect tokens (runSyncEffect { u0 with fromToken := t }) from rfl,
          hshape]
        exact ⟨rfl, rfl⟩
      | selectTo t =>
        obtain ⟨tt, hshape⟩ :=
          runTokenChangeEffect_shape tokens (runSyncEffect { u0 with toToken := t })
        rw [show step tokens (Event.selectTo t) u0
            = runTokenChangeEffect tokens (runSyncEffect { u0 with toToken := t }) from rfl,
          hshape]
        exact ⟨rfl, rfl⟩
      | swapDirection =>
        obtain ⟨tt, hshape⟩ :=
          runTokenChangeEffect_shape tokens (runSyncEffect (swapHandler u0))
        rw [show step tokens Event.swapDirection u0
            = runTokenChangeEffect tokens (runSyncEffect (swapHandler u0)) from rfl,
          hshape]
        exact ⟨rfl, rfl⟩
      | submitAttempt =>
        have hz : u0.toToken.priceUsd = some 0 := by
          rw [← (attemptSubmit_frame u0).2.1]
          exact h0
        rw [show step tokens Event.submitAttempt u0 = attemptSubmit u0 from rfl,
          attemptSubmit_of_disabled (submitDisabled_of_toPrice_zero u0 hz)]
        exact ih hz
      | settleTimer => exact ⟨rfl, rfl⟩
  obtain ⟨h1, h2⟩ := key s h h0
  exact ⟨h1, h2, submitDisabled_of_toPrice_zero s h0⟩

/-- Witness for C5: the mounted initial state over a token list whose second
entry has price zero. -/
theorem claim_C5_rate_unavailable_witness :
    (mountedInit zeroTokens).fromAmount = "" ∧
    (mountedInit zeroTokens).toAmount = "" ∧
    submitDisabled (mountedInit zeroTokens) = true :=
  claim_C5_rate_unavailable zeroTokens (mountedInit zeroTokens)
    Reachable.init (by decide)


/-- The sync effect preserves well-formedness of both amount texts. -/
theorem runSyncEffect_wellFormed (s : SwapState)
    (h1 : wellFormedAmount s.fromAmount) (h2 : wellFormedAmount s.toAmount) :
    wellFormedAmount (runSyncEffect s).fromAmount ∧
    wellFormedAmount (runSyncEffect s).toAmount := by
  unfold runSyncEffect
  by_cases hrate : exchangeRate s.fromToken s.toToken ≤ 0
  · rw [if_pos hrate]
    exact ⟨Or.inl rfl, Or.inl rfl⟩
  · rw [if_neg hrate]
    cases hdrv : s.lastUpdatedField with
    | none => exact ⟨h1, h2⟩
    | some f =>
      cases f with
      | fromField =>
        cases hp : jsParseFloat s.fromAmount with
        | none => exact ⟨h1, Or.inl rfl⟩
        | some a =>
          dsimp only
          by_cases ha : a ≤ 0
          · rw [if_pos ha]
            exact ⟨h1, Or.inl rfl⟩
          · rw [if_neg ha]
            exact ⟨h1, wellFormed_jsToFixed8 (le_of_lt
              (calculateAmount_pos (not_le.mp ha) (not_le.mp hrate) false))⟩
      | toField =>
        cases hp : jsParseFloat s.toAmount with
        | none => exact ⟨Or.inl rfl, h2⟩
        | some a =>
          dsimp only
          by_cases ha : a ≤ 0
          · rw [if_pos ha]
            exact ⟨Or.inl rfl, h2⟩
          · rw [if_neg ha]
            exact ⟨wellFormed_jsToFixed8 (le_of_lt
              (calculateAmount_pos (not_le.mp ha) (not_le.mp hrate) true)), h2⟩

/-- Claim C10: in every reachable state, each amount text is empty or made of
digits with at most one decimal point: keystrokes are cleaned before storage,
derived values come from the 8-digit formatter, and every other write blanks
or moves an already-stored text. -/
theorem claim_C10_wellformed_amounts (tokens : List Asset) (s : SwapState)
    (h : Reachable tokens s) :
    wellFormedAmount s.fromAmount ∧ wellFormedAmount s.toAmount := by
  induction h with
  | init =>
    obtain ⟨tt, hshape⟩ :=
      runTokenChangeEffect_shape tokens (runSyncEffect (initState tokens))
    rw [show mountedInit tokens
        = runTokenChangeEffect tokens (runSyncEffect (initState tokens)) from rfl, hshape]
    exact ⟨Or.inl rfl, Or.inl rfl⟩
  | next e hs ih =>
    rename_i u0
    cases e with
    | editFrom raw =>
      exact runSyncEffect_wellFormed (editHandler .fromField raw u0)
        (wellFormed_cleanAmount raw) ih.2
    | editTo raw =>
      exact runSyncEffect_wellFormed (editHandler .toField raw u0)
        ih.1 (wellFormed_cleanAmount raw)
    | selectFrom t =>
      obtain ⟨tt, hshape⟩ :=
        runTokenChangeEffect_shape tokens (runSyncEffect { u0 with fromToken := t })
      rw [show step tokens (Event.selectFrom t) u0
          = runTokenChangeEffect tokens (runSyncEffect { u0 with fromToken := t }) from rfl,
        hshape]
      exact ⟨Or.inl rfl, Or.inl rfl⟩
    | selectTo t =>
      obtain ⟨tt, hshape⟩ :=
        runTokenChangeEffect_shape tokens (runSyncEffect { u0 with toToken := t })
      rw [show step tokens (Event.selectTo t) u0
          = runTokenChangeEffect tokens (runSyncEffect { u0 with toToken := t }) from rfl,
        hshape]
      exact ⟨Or.inl rfl, Or.inl rfl⟩
    | swapDirection =>
      obtain ⟨tt, hshape⟩ :=
        runTokenChangeEffect_shape tokens (runSyncEffect (swapHandler u0))
      rw [show step tokens Event.swapDirection u0
          = runTokenChangeEffect tokens (runSyncEffect (swapHandler u0)) from rfl,
        hshape]
      exact ⟨Or.inl rfl, Or.inl rfl⟩
    | submitAttempt =>
      constructor
      · rw [show step tokens Event.submitAttempt u0 = attemptSubmit u0 from rfl,
          (attemptSubmit_frame u0).2.2.1]
        exact ih.1
      · rw [show step tokens Event.submitAttempt u0 = attemptSubmit u0 from rfl,
          (attemptSubmit_frame u0).2.2.2]
        exact ih.2
    | settleTimer => exact ⟨Or.inl rfl, Or.inl rfl⟩

/-- Witness for C10 at the mounted initial state over the demo tokens. -/
theorem claim_C10_wellformed_amounts_witness :
    wellFormedAmount (mountedInit demoTokens).fromAmount ∧
    wellFormedAmount (mountedInit demoTokens).toAmount :=
  claim_C10_wellformed_amounts demoTokens (mountedInit demoTokens) Reachable.init

/-- Claim C1: every transition out of a state with distinct asset symbols
again yields distinct symbols (provided the canonical list holds two distinct
symbols), and selecting a to-asset equal to the current from-asset reassigns
`toToken` to the first listed asset whose symbol differs from the from
symbol. -/
theorem claim_C1_asset_invariant (tokens : List Asset) (e : Event) (s : SwapState)
    (hinv : s.fromToken.symbol ≠ s.toToken.symbol)
    (htwo : ∃ u ∈ tokens, ∃ v ∈ tokens, u.symbol ≠ v.symbol) :
    (step tokens e s).fromToken.symbol ≠ (step tokens e s).toToken.symbol ∧
    (∀ t, e = Event.selectTo t → t.symbol = s.fromToken.symbol →
      ∃ w, tokens.find? (fun a => a.symbol != s.fromToken.symbol) = some w ∧
        (step tokens e s).toToken = w) := by
  cases e with
  | editFrom raw =>
    refine ⟨?_, fun t ht => by cases ht⟩
    show (runSyncEffect (editHandler .fromField raw s)).fromToken.symbol
      ≠ (runSyncEffect (editHandler .fromField raw s)).toToken.symbol
    rw [(runSyncEffect_frame (editHandler .fromField raw s)).1,
      (runSyncEffect_frame (editHandler .fromField raw s)).2.1]
    exact hinv
  | editTo raw =>
    refine ⟨?_, fun t ht => by cases ht⟩
    show (runSyncEffect (editHandler .toField raw s)).fromToken.symbol
      ≠ (runSyncEffect (editHandler .toField raw s)).toToken.symbol
    rw [(runSyncEffect_frame (editHandler .toField raw s)).1,
      (runSyncEffect_frame (editHandler .toField raw s)).2.1]
    exact hinv
  | selectFrom t =>
    exact ⟨runTokenChangeEffect_distinct htwo _, fun t2 ht => by cases ht⟩
  | selectTo t =>
    refine ⟨runTokenChangeEffect_distinct htwo _, ?_⟩
    intro t2 ht hsym
    injection ht with htt
    subst htt
    obtain ⟨w, hw, hwx⟩ := find_ne_symbol htwo s.fromToken.symbol
    refine ⟨w, hw, ?_⟩
    have hfrom : (runSyncEffect { s with toToken := t }).fromToken = s.fromToken :=
      (runSyncEffect_frame _).1
    have hto : (runSyncEffect { s with toToken := t }).toToken = t :=
      (runSyncEffect_frame _).2.1
    have hcond : (runSyncEffect { s with toToken := t }).fromToken.symbol
        = (runSyncEffect { s with toToken := t }).toToken.symbol := by
      rw [hfrom, hto]
      exact hsym.symm
    show (runTokenChangeEffect tokens (runSyncEffect { s with toToken := t })).toToken = w
    unfold runTokenChangeEffect reassignToToken
    rw [if_pos hcond, hfrom, hw]
  | swapDirection =>
    exact ⟨runTokenChangeEffect_distinct htwo _, fun t ht => by cases ht⟩
  | submitAttempt =>
    refine ⟨?_, fun t ht => by cases ht⟩
    show (attemptSubmit s).fromToken.symbol ≠ (attemptSubmit s).toToken.symbol
    rw [(attemptSubmit_frame s).1, (attemptSubmit_frame s).2.1]
    exact hinv
  | settleTimer =>
    exact ⟨hinv, fun t ht => by cases ht⟩

/-- Witness for C1: selecting the current from-asset as the to-asset over the
demo tokens. -/
theorem claim_C1_asset_invariant_witness :
    (step demoTokens (Event.selectTo tokA) (mountedInit demoTokens)).fromToken.symbol
      ≠ (step demoTokens (Event.selectTo tokA) (mountedInit demoTokens)).toToken.symbol :=
  (claim_C1_asset_invariant demoTokens (Event.selectTo tokA) (mountedInit demoTokens)
    (by decide) (by decide)).1

end SwapApp
